import Mathlib

/-!
# SIGEPy batch-lifecycle verification

Shallow embedding of the batch lifecycle of `src/SIGEPy.py`: package and
address accumulation, `close_posting_list`, the metrics and rendering
operations, and session construction.  Remote registrar interactions
(tracking-code issuance, closure, availability and delivery-time queries)
are modelled as oracle parameters; every remote call that an execution
issues is recorded in an event trace so that ordering and call-count
properties can be stated.
-/

namespace SIGEPy

/-- Error taxonomy.  The Python source raises bare `AssertionError` /
`Exception` values; constructors follow the taxonomy the different raise
sites fall into (which assert failed, validation, configuration, rendering
precondition, remote failure). -/
inductive PrecondField
  | packages
  | sender
  | receiver
deriving DecidableEq

inductive Err
  | precondition (f : PrecondField)
  | validation
  | configuration
  | notClosed
  | remote (code : Nat)
deriving DecidableEq

/-- Sender/receiver address (`correios` `Address`); only the zip code is
consumed by the lifecycle code under verification. -/
structure Address where
  zip_code : Nat
deriving DecidableEq

/-- A package: its mandatory service selector plus the remaining
construction fields, kept opaque. -/
structure Package where
  service : Nat
  payload : List Nat
deriving DecidableEq

/-- A shipping label, one per package: the composite built at
`src/SIGEPy.py:113-118`. -/
structure ShippingLabel where
  posting_card : Nat
  sender : Address
  receiver : Address
  service : Nat
  tracking_code : Nat
  package : Package
deriving DecidableEq

/-- A posting list: its id and an ordered mapping from tracking code to
shipping label, plus the open/closed flag. -/
structure PostingList where
  custom_id : Nat
  shipping_labels : List (Nat × ShippingLabel)
  closed : Bool
deriving DecidableEq

/-- Modelled from the spec: `PostingList.add_shipping_label` lives in the
external `correios` library, not under `src/`; the spec describes the
container as an ordered mapping from tracking code to label, so insertion
follows dict semantics: overwrite in place when the key exists, append
otherwise. -/
def PostingList.add_shipping_label (pl : PostingList) (label : ShippingLabel) : PostingList :=
  if pl.shipping_labels.any (fun q => q.1 == label.tracking_code) then
    let replaced := pl.shipping_labels.map
      (fun q => if q.1 == label.tracking_code then (label.tracking_code, label) else q)
    { pl with shipping_labels := replaced }
  else
    { pl with shipping_labels := pl.shipping_labels ++ [(label.tracking_code, label)] }

/-- The mutable session state: accumulator (packages, sender, receiver),
the posting-card credential, and the stored closed posting list. -/
structure SigState where
  posting_card : Nat
  packages : List Package
  sender : Option Address
  receiver : Option Address
  posting_list : Option PostingList
deriving DecidableEq

/-- Remote-interaction events, in issue order. -/
inductive Event
  | allocate (idx : Nat) (service : Nat)
  | closure (labels : List (Nat × ShippingLabel))
  | query (posting_card service fromZip toZip : Nat)
  | delegated
deriving DecidableEq

/-- The label-building loop of `close_posting_list`
(`src/SIGEPy.py:112-120`): for each package, in order, one tracking-code
request (`request_tracking_codes(service=package.service)[0]`, modelled by
the oracle `alloc` on the call index and service), then the label is added
to the open posting list.  Returns the resulting posting list or the first
remote error, together with the allocation-call trace. -/
def buildLabels (pc : Nat) (snd rcv : Address) (alloc : Nat → Nat → Except Err Nat) :
    List Package → Nat → PostingList → Except Err PostingList × List Event
  | [], _, pl => (Except.ok pl, [])
  | p :: rest, i, pl =>
    match alloc i p.service with
    | Except.error e => (Except.error e, [Event.allocate i p.service])
    | Except.ok code =>
      let label : ShippingLabel := ⟨pc, snd, rcv, p.service, code, p⟩
      let r := buildLabels pc snd rcv alloc rest (i + 1) (pl.add_shipping_label label)
      (r.1, Event.allocate i p.service :: r.2)

/-- Embedding of `SIGEPy._drop_posting_list_data` (`src/SIGEPy.py:144-152`). -/
def drop_posting_list_data (st : SigState) : SigState :=
  { st with packages := [], receiver := none, sender := none }

/-- Embedding of `SIGEPy.close_posting_list` (`src/SIGEPy.py:92-126`).  The Python
signature is `(custom_id=None, *args, **kwargs)`: a call with positional
arguments binds the first to `custom_id` and the rest to `args`; the
keyword `custom_id` binds the parameter while any other keyword lands in
`kwargs`.  `posArgs` is the positional-argument list, `kwCustomId` the
`custom_id` keyword if passed, `extraKw` the remaining keywords.  When
`args or kwargs` is non-empty the call is delegated to the transport
client (`superResult` oracle).  Otherwise: the three asserts, id
resolution (`rand_id` stands for `randint(1000, 9999999)`), the label
loop, the remote closure call (`closeErr` oracle: `none` is success),
storing the closed list, and the accumulator reset. -/
def close_posting_list
    (alloc : Nat → Nat → Except Err Nat)
    (closeErr : Option Err)
    (superResult : Except Err PostingList)
    (rand_id : Nat)
    (posArgs : List Nat) (kwCustomId : Option Nat) (extraKw : List Nat)
    (st : SigState) : Except Err PostingList × SigState × List Event :=
  if 1 < posArgs.length ∨ extraKw ≠ [] then
    (superResult, st, [Event.delegated])
  else if st.packages.length = 0 then
    (Except.error (Err.precondition PrecondField.packages), st, [])
  else
    match st.sender with
    | none => (Except.error (Err.precondition PrecondField.sender), st, [])
    | some snd =>
      match st.receiver with
      | none => (Except.error (Err.precondition PrecondField.receiver), st, [])
      | some rcv =>
        let cid := (match posArgs with
                    | [] => kwCustomId
                    | x :: _ => some x).getD rand_id
        match buildLabels st.posting_card snd rcv alloc st.packages 0 ⟨cid, [], false⟩ with
        | (Except.error e, tr) => (Except.error e, st, tr)
        | (Except.ok openPl, tr) =>
          match closeErr with
          | some e => (Except.error e, st, tr ++ [Event.closure openPl.shipping_labels])
          | none =>
            let closedPl : PostingList := { openPl with closed := true }
            (Except.ok closedPl,
             { drop_posting_list_data st with posting_list := some closedPl },
             tr ++ [Event.closure openPl.shipping_labels])

/-- One availability query per label: the remote call at
`src/SIGEPy.py:135-138` takes the label's posting card, service, and the
two zip codes. -/
def labelQuery (q : Nat × ShippingLabel) : Event :=
  Event.query q.2.posting_card q.2.service q.2.sender.zip_code q.2.receiver.zip_code

def labelAvail (avail : Nat → Nat → Nat → Nat → Bool) (q : Nat × ShippingLabel) : Bool :=
  avail q.2.posting_card q.2.service q.2.sender.zip_code q.2.receiver.zip_code

/-- Result shape of `verify_service_availability`, mirroring the Python
return type `Union[bool, List[bool], None]`. -/
inductive VSAOut
  | single (b : Bool)
  | many (l : List Bool)
  | noneOut
deriving DecidableEq

/-- Embedding of `SIGEPy.verify_service_availability` (`src/SIGEPy.py:128-142`): with
arguments, delegate to the transport client; with no arguments and a
stored posting list, one remote query per label in label order; with no
stored posting list, return `None` (no exception is raised). -/
def verify_service_availability
    (avail : Nat → Nat → Nat → Nat → Bool)
    (superResult : Except Err Bool)
    (hasArgsOrKwargs : Bool)
    (st : SigState) : Except Err VSAOut × List Event :=
  if hasArgsOrKwargs then
    (superResult.map VSAOut.single, [Event.delegated])
  else
    match st.posting_list with
    | some pl =>
      (Except.ok (VSAOut.many (pl.shipping_labels.map (labelAvail avail))),
       pl.shipping_labels.map labelQuery)
    | none => (Except.ok VSAOut.noneOut, [])

/-- The `delivery_time` generator property (`src/SIGEPy.py:271-279`): with
a stored posting list it yields one remote delivery-time estimate per
label (oracle `dt` on service, sender zip, receiver zip); with none it
yields nothing — the generator body is skipped and no exception is
raised, so the error channel is never used. -/
def delivery_time (dt : Nat → Nat → Nat → Int) (st : SigState) : Except Err (List Int) :=
  match st.posting_list with
  | some pl =>
    Except.ok (pl.shipping_labels.map
      (fun q => dt q.2.service q.2.sender.zip_code q.2.receiver.zip_code))
  | none => Except.ok []

/-- The `freights` generator property (`src/SIGEPy.py:281-292`): one
freight quote per label (first element of the remote response, modelled
by the oracle `fr` on the label); with no stored posting list it yields
nothing and raises nothing. -/
def freights (fr : ShippingLabel → Nat) (st : SigState) : Except Err (List Nat) :=
  match st.posting_list with
  | some pl => Except.ok (pl.shipping_labels.map (fun q => fr q.2))
  | none => Except.ok []

/-- Embedding of `SIGEPy.generate_delivery_labels_pdf` (`src/SIGEPy.py:154-158`):
renders when a posting list is stored, raises otherwise. -/
def generate_delivery_labels_pdf (render : PostingList → Nat) (st : SigState) :
    Except Err Nat :=
  match st.posting_list with
  | some pl => Except.ok (render pl)
  | none => Except.error Err.notClosed

/-- Embedding of `SIGEPy.generate_delivery_posting_list_pdf` (`src/SIGEPy.py:160-164`). -/
def generate_delivery_posting_list_pdf (render : PostingList → Nat) (st : SigState) :
    Except Err Nat :=
  match st.posting_list with
  | some pl => Except.ok (render pl)
  | none => Except.error Err.notClosed

/-- An `add_package` call: the positional arguments (opaque values; the
8th position, index 7, is `service`) and the `service` keyword when
passed. -/
structure PkgCall where
  args : List Nat
  kwService : Option Nat
deriving DecidableEq

/-- Modelled from the spec: `Package.__init__` lives in the external
`correios` library, not under `src/`; the spec states that a package's
service is mandatory and that an absent service is a construction error. -/
def mkPackage (c : PkgCall) : Except Err Package :=
  match c.kwService with
  | some s => Except.ok ⟨s, c.args⟩
  | none =>
    match c.args.get? 7 with
    | some s => Except.ok ⟨s, c.args⟩
    | none => Except.error Err.validation

/-- Embedding of `SIGEPy.add_package` (`src/SIGEPy.py:166-184`): the guard raises when
`service` is not a keyword and fewer than 7 positional arguments are
given; otherwise the package is constructed and appended.  On any raise
the accumulator is untouched (the append is never reached). -/
def add_package (c : PkgCall) (st : SigState) : Except Err Unit × SigState :=
  if c.kwService = none ∧ c.args.length < 7 then
    (Except.error Err.validation, st)
  else
    match mkPackage c with
    | Except.error e => (Except.error e, st)
    | Except.ok p => (Except.ok (), { st with packages := st.packages ++ [p] })

/-- Embedding of `SIGEPy.create_sender` (`src/SIGEPy.py:186-205`). -/
def create_sender (a : Address) (st : SigState) : SigState :=
  { st with sender := some a }

/-- Embedding of `SIGEPy.create_receiver` (`src/SIGEPy.py:207-226`). -/
def create_receiver (a : Address) (st : SigState) : SigState :=
  { st with receiver := some a }

/-- Regional-direction resolution in `SIGEPy.__init__`
(`src/SIGEPy.py:44-50`): filter the table on the code, accept exactly one
match (the matched pair), raise otherwise.  Table entries are
(region number, code). -/
def resolve_regional_direction (table : List (Nat × Nat)) (code : Nat) :
    Except Err (Nat × Nat) :=
  match table.filter (fun rd => rd.2 == code) with
  | [x] => Except.ok x
  | _ => Except.error Err.configuration

/-- The fresh session state built by `__init__`: empty accumulator, no
posting list. -/
def initState (pc : Nat) : SigState :=
  ⟨pc, [], none, none, none⟩

/-- How the regional direction is passed to the constructor: directly as
an integer, or as a string code to be resolved. -/
inductive RDInput
  | direct (rd : Nat)
  | byCode (code : Nat)
deriving DecidableEq

/-- Embedding of `SIGEPy.__init__` (`src/SIGEPy.py:15-69`), restricted to the state the
lifecycle claims observe: resolve the regional direction when given as a
code (failing construction when the lookup does not resolve to exactly
one entry), and return the resolved entry with the fresh state. -/
def SIGEPy_init (table : List (Nat × Nat)) (rdi : RDInput) (pc : Nat) :
    Except Err ((Nat × Nat) × SigState) :=
  match rdi with
  | RDInput.direct rd => Except.ok ((rd, rd), initState pc)
  | RDInput.byCode c =>
    match resolve_regional_direction table c with
    | Except.ok x => Except.ok (x, initState pc)
    | Except.error e => Except.error e

/-- The expected trace of the label loop: one allocation event per
package, in insertion order, indexed from `i`. -/
def allocTrace : List Package → Nat → List Event
  | [], _ => []
  | p :: rest, i => Event.allocate i p.service :: allocTrace rest (i + 1)

/-- The labels the loop assembles when every allocation succeeds with the
code stream `codes`. -/
def mkLabels (pc : Nat) (snd rcv : Address) (codes : Nat → Nat) :
    List Package → Nat → List (Nat × ShippingLabel)
  | [], _ => []
  | p :: rest, i =>
    (codes i, ⟨pc, snd, rcv, p.service, codes i, p⟩) :: mkLabels pc snd rcv codes rest (i + 1)

/-! ## Helper lemmas -/

deriving instance DecidableEq for Except

/-- Lemma: `mkLabels` produces one label per package. -/
lemma mkLabels_length (pc : Nat) (snd rcv : Address) (codes : Nat → Nat) :
    ∀ (ps : List Package) (i : Nat), (mkLabels pc snd rcv codes ps i).length = ps.length
  | [], _ => rfl
  | _ :: rest, i => by
    simp [mkLabels, mkLabels_length pc snd rcv codes rest (i + 1)]

/-- The packages carried by `mkLabels`, in order, are exactly the input packages. -/
lemma mkLabels_map_package (pc : Nat) (snd rcv : Address) (codes : Nat → Nat) :
    ∀ (ps : List Package) (i : Nat),
      (mkLabels pc snd rcv codes ps i).map (fun q => q.2.package) = ps
  | [], _ => rfl
  | _ :: rest, i => by
    simp [mkLabels, mkLabels_map_package pc snd rcv codes rest (i + 1)]

/-- Every tracking code in `mkLabels ps i` is `codes k` for some `k ≥ i`. -/
lemma mkLabels_code_mem (pc : Nat) (snd rcv : Address) (codes : Nat → Nat) :
    ∀ (ps : List Package) (i : Nat) (q : Nat × ShippingLabel),
      q ∈ mkLabels pc snd rcv codes ps i → ∃ k, i ≤ k ∧ q.2.tracking_code = codes k
  | [], _, _, h => by cases h
  | p :: rest, i, q, h => by
    rcases List.mem_cons.mp h with h1 | h1
    · exact ⟨i, le_refl i, by rw [h1]⟩
    · obtain ⟨k, hk, hq⟩ := mkLabels_code_mem pc snd rcv codes rest (i + 1) q h1
      exact ⟨k, by omega, hq⟩

/-- With an injective code stream, the tracking codes of `mkLabels` are
pairwise distinct. -/
lemma mkLabels_pairwise (pc : Nat) (snd rcv : Address) (codes : Nat → Nat)
    (hinj : ∀ i j, codes i = codes j → i = j) :
    ∀ (ps : List Package) (i : Nat),
      List.Pairwise (fun a b => a ≠ b)
        ((mkLabels pc snd rcv codes ps i).map (fun q => q.2.tracking_code))
  | [], _ => List.Pairwise.nil
  | p :: rest, i => by
    simp only [mkLabels, List.map_cons, List.pairwise_cons]
    constructor
    · intro y hy
      simp only [List.mem_map] at hy
      obtain ⟨q, hq, hyq⟩ := hy
      obtain ⟨k, hk, hcode⟩ := mkLabels_code_mem pc snd rcv codes rest (i + 1) q hq
      intro hcontra
      have : i = k := hinj i k (by rw [hcontra, ← hyq, hcode])
      omega
    · exact mkLabels_pairwise pc snd rcv codes hinj rest (i + 1)

/-- The `i`-th event of the allocation trace is the allocation for the
`i`-th package. -/
lemma allocTrace_get :
    ∀ (ps : List Package) (start i : Nat),
      (allocTrace ps start).get? i =
        (ps.get? i).map (fun p => Event.allocate (start + i) p.service)
  | [], _, _ => by simp [allocTrace]
  | p :: rest, start, 0 => by simp [allocTrace]
  | p :: rest, start, i + 1 => by
    have := allocTrace_get rest (start + 1) i
    simp only [allocTrace, List.get?_cons_succ, this]
    have harith : start + 1 + i = start + (i + 1) := by omega
    rw [harith]

/-- The allocation trace of a run of the label loop is always an initial
segment of the full allocation trace: one event per completed or failed
allocation attempt, in package order, and nothing else. -/
lemma buildLabels_trace_take (pc : Nat) (snd rcv : Address)
    (alloc : Nat → Nat → Except Err Nat) :
    ∀ (ps : List Package) (start : Nat) (pl : PostingList),
      ∃ n, n ≤ ps.length ∧
        (buildLabels pc snd rcv alloc ps start pl).2 = allocTrace (ps.take n) start
  | [], start, pl => ⟨0, by simp [buildLabels, allocTrace]⟩
  | p :: rest, start, pl => by
    simp only [buildLabels]
    rcases halloc : alloc start p.service with e | code
    · exact ⟨1, by simp [allocTrace]⟩
    · obtain ⟨n, hn, htr⟩ := buildLabels_trace_take pc snd rcv alloc rest (start + 1)
        (pl.add_shipping_label ⟨pc, snd, rcv, p.service, code, p⟩)
      exact ⟨n + 1, by simpa using hn, by simp [allocTrace, htr]⟩

/-- When the label loop succeeds, every allocation was made: the trace is
the full allocation trace. -/
lemma buildLabels_ok_trace (pc : Nat) (snd rcv : Address)
    (alloc : Nat → Nat → Except Err Nat) :
    ∀ (ps : List Package) (start : Nat) (pl pl2 : PostingList),
      (buildLabels pc snd rcv alloc ps start pl).1 = Except.ok pl2 →
      (buildLabels pc snd rcv alloc ps start pl).2 = allocTrace ps start
  | [], start, pl, pl2, _ => by simp [buildLabels, allocTrace]
  | p :: rest, start, pl, pl2, h => by
    simp only [buildLabels] at h ⊢
    rcases halloc : alloc start p.service with e | code
    · rw [halloc] at h; exact absurd h (by simp)
    · rw [halloc] at h
      simp only [allocTrace, List.cons.injEq, true_and]
      exact buildLabels_ok_trace pc snd rcv alloc rest (start + 1)
        (pl.add_shipping_label ⟨pc, snd, rcv, p.service, code, p⟩) pl2 h

/-- Characterization of the label loop when every allocation succeeds with
the injective code stream `codes` and the open posting list holds no key
that `codes` will produce: the loop appends exactly `mkLabels` and emits
exactly the full allocation trace. -/
lemma buildLabels_spec (pc : Nat) (snd rcv : Address)
    (alloc : Nat → Nat → Except Err Nat) (codes : Nat → Nat)
    (halloc : ∀ i s, alloc i s = Except.ok (codes i))
    (hinj : ∀ i j, codes i = codes j → i = j) :
    ∀ (ps : List Package) (start : Nat) (pl : PostingList),
      (∀ q ∈ pl.shipping_labels, ∀ k, start ≤ k → q.1 ≠ codes k) →
      buildLabels pc snd rcv alloc ps start pl =
        (Except.ok { pl with shipping_labels :=
            pl.shipping_labels ++ mkLabels pc snd rcv codes ps start },
         allocTrace ps start)
  | [], start, pl, hfresh => by simp [buildLabels, mkLabels, allocTrace]
  | p :: rest, start, pl, hfresh => by
    have hkey : pl.shipping_labels.any (fun q => q.1 == codes start) = false := by
      rw [List.any_eq_false]
      intro q hq
      simpa using hfresh q hq start (le_refl start)
    have hadd : pl.add_shipping_label ⟨pc, snd, rcv, p.service, codes start, p⟩ =
        { pl with shipping_labels :=
            pl.shipping_labels ++ [(codes start, ⟨pc, snd, rcv, p.service, codes start, p⟩)] } := by
      simp [PostingList.add_shipping_label, hkey]
    have hfresh2 : ∀ q ∈ (pl.add_shipping_label
          ⟨pc, snd, rcv, p.service, codes start, p⟩).shipping_labels,
        ∀ k, start + 1 ≤ k → q.1 ≠ codes k := by
      rw [hadd]
      intro q hq k hk
      rcases List.mem_append.mp hq with h1 | h1
      · exact hfresh q h1 k (by omega)
      · have hq1 : q.1 = codes start := by
          rcases List.mem_singleton.mp h1 with rfl
          rfl
        rw [hq1]
        intro hcontra
        have : start = k := hinj start k hcontra
        omega
    have ih := buildLabels_spec pc snd rcv alloc codes halloc hinj rest (start + 1)
      (pl.add_shipping_label ⟨pc, snd, rcv, p.service, codes start, p⟩) hfresh2
    rw [hadd] at ih
    simp only [buildLabels, halloc, hadd, ih, mkLabels, allocTrace]
    simp [List.append_assoc]

/-- A no-extra-argument close on an empty package list fails the first
assert, before any remote call: no events, state untouched. -/
lemma close_empty_packages (alloc : Nat → Nat → Except Err Nat) (closeErr : Option Err)
    (superResult : Except Err PostingList) (rand_id : Nat) (kwCustomId : Option Nat)
    (st : SigState) (h : st.packages = []) :
    close_posting_list alloc closeErr superResult rand_id [] kwCustomId [] st =
      (Except.error (Err.precondition PrecondField.packages), st, []) := by
  simp [close_posting_list, h]

/-- A no-extra-argument close with packages but no sender fails the second
assert, before any remote call. -/
lemma close_no_sender (alloc : Nat → Nat → Except Err Nat) (closeErr : Option Err)
    (superResult : Except Err PostingList) (rand_id : Nat) (kwCustomId : Option Nat)
    (st : SigState) (hp : st.packages ≠ []) (hs : st.sender = none) :
    close_posting_list alloc closeErr superResult rand_id [] kwCustomId [] st =
      (Except.error (Err.precondition PrecondField.sender), st, []) := by
  simp [close_posting_list, List.length_eq_zero, hp, hs]

/-- A no-extra-argument close with packages and sender but no receiver
fails the third assert, before any remote call. -/
lemma close_no_receiver (alloc : Nat → Nat → Except Err Nat) (closeErr : Option Err)
    (superResult : Except Err PostingList) (rand_id : Nat) (kwCustomId : Option Nat)
    (st : SigState) (snd : Address) (hp : st.packages ≠ [])
    (hs : st.sender = some snd) (hr : st.receiver = none) :
    close_posting_list alloc closeErr superResult rand_id [] kwCustomId [] st =
      (Except.error (Err.precondition PrecondField.receiver), st, []) := by
  simp [close_posting_list, List.length_eq_zero, hp, hs, hr]

/-- Unfolding of a no-extra-argument close once the three asserts pass:
the label loop runs, then on success the closure call, the store and the
accumulator reset. -/
lemma close_valid_unfold (alloc : Nat → Nat → Except Err Nat) (closeErr : Option Err)
    (superResult : Except Err PostingList) (rand_id : Nat) (kwCustomId : Option Nat)
    (st : SigState) (snd rcv : Address) (hp : st.packages ≠ [])
    (hs : st.sender = some snd) (hr : st.receiver = some rcv) :
    close_posting_list alloc closeErr superResult rand_id [] kwCustomId [] st =
      (match buildLabels st.posting_card snd rcv alloc st.packages 0
          ⟨kwCustomId.getD rand_id, [], false⟩ with
       | (Except.error e, tr) => (Except.error e, st, tr)
       | (Except.ok openPl, tr) =>
         match closeErr with
         | some e => (Except.error e, st, tr ++ [Event.closure openPl.shipping_labels])
         | none =>
           (Except.ok { openPl with closed := true },
            { drop_posting_list_data st with
                posting_list := some { openPl with closed := true } },
            tr ++ [Event.closure openPl.shipping_labels])) := by
  simp [close_posting_list, List.length_eq_zero, hp, hs, hr]

/-! ## Concrete sample inputs used by witnesses and counterexamples -/

/-- A populated session: two packages (services 1 and 2), sender and
receiver set, nothing closed yet. -/
def stSample : SigState := ⟨7, [⟨1, []⟩, ⟨2, []⟩], some ⟨11⟩, some ⟨22⟩, none⟩

/-- An allocation oracle that always succeeds with distinct codes. -/
def allocSeq : Nat → Nat → Except Err Nat := fun i _ => Except.ok (100 + i)

/-- An allocation oracle that succeeds for the first package and fails
remotely for the second. -/
def allocFailSecond : Nat → Nat → Except Err Nat :=
  fun i _ => if i = 0 then Except.ok 100 else Except.error (Err.remote 5)

def superPL : Except Err PostingList := Except.error (Err.remote 9)

def superB : Except Err Bool := Except.ok true

def dtSample : Nat → Nat → Nat → Int := fun _ _ _ => 3

def frSample : ShippingLabel → Nat := fun _ => 1

def renderSample : PostingList → Nat := fun _ => 0

def availTrue : Nat → Nat → Nat → Nat → Bool := fun _ _ _ _ => true

def availFalse : Nat → Nat → Nat → Nat → Bool := fun _ _ _ _ => false

/-- The posting list a successful close of `stSample` under `allocSeq`
produces. -/
def plSample : PostingList :=
  ⟨42, [(100, ⟨7, ⟨11⟩, ⟨22⟩, 1, 100, ⟨1, []⟩⟩),
        (101, ⟨7, ⟨11⟩, ⟨22⟩, 2, 101, ⟨2, []⟩⟩)], true⟩

/-- The session state after that successful close: empty accumulator,
`plSample` stored. -/
def stAfter : SigState := ⟨7, [], none, none, some plSample⟩

def trSample : List Event :=
  [Event.allocate 0 1, Event.allocate 1 2, Event.closure plSample.shipping_labels]

/-! ## Claim theorems -/

/-- C1: for every non-empty package list with a sender and a receiver set,
a no-argument close returns a posting list with exactly one shipping label
per accumulated package, in insertion order, with pairwise-distinct
tracking codes (the allocation oracle is assumed available and, as the
spec states of the registrar, to never reuse a code). -/
theorem close_ok_one_label_per_package
    (st : SigState) (alloc : Nat → Nat → Except Err Nat) (codes : Nat → Nat)
    (superResult : Except Err PostingList) (rand_id : Nat) (kwCustomId : Option Nat)
    (snd rcv : Address)
    (hp : st.packages ≠ []) (hs : st.sender = some snd) (hr : st.receiver = some rcv)
    (halloc : ∀ i s, alloc i s = Except.ok (codes i))
    (hinj : ∀ i j, codes i = codes j → i = j) :
    ∃ pl st2 tr,
      close_posting_list alloc none superResult rand_id [] kwCustomId [] st =
        (Except.ok pl, st2, tr) ∧
      pl.shipping_labels.length = st.packages.length ∧
      pl.shipping_labels.map (fun q => q.2.package) = st.packages ∧
      List.Pairwise (fun a b => a ≠ b)
        (pl.shipping_labels.map (fun q => q.2.tracking_code)) := by
  rw [close_valid_unfold alloc none superResult rand_id kwCustomId st snd rcv hp hs hr]
  rw [buildLabels_spec st.posting_card snd rcv alloc codes halloc hinj st.packages 0
    ⟨kwCustomId.getD rand_id, [], false⟩ (by intro q hq; cases hq)]
  refine ⟨_, _, _, rfl, ?_, ?_, ?_⟩
  · simp [mkLabels_length]
  · simp [mkLabels_map_package]
  · simpa using mkLabels_pairwise st.posting_card snd rcv codes hinj st.packages 0

theorem close_ok_one_label_per_package_witness :
    ∃ pl st2 tr,
      close_posting_list allocSeq none superPL 42 [] none [] stSample =
        (Except.ok pl, st2, tr) ∧
      pl.shipping_labels.length = stSample.packages.length ∧
      pl.shipping_labels.map (fun q => q.2.package) = stSample.packages ∧
      List.Pairwise (fun a b => a ≠ b)
        (pl.shipping_labels.map (fun q => q.2.tracking_code)) :=
  close_ok_one_label_per_package stSample allocSeq (fun i => 100 + i) superPL 42 none
    ⟨11⟩ ⟨22⟩ (by decide) rfl rfl (fun i s => rfl) (fun i j h => Nat.add_left_cancel h)

/-- C2: a no-argument close on a state with no packages, or no sender, or
no receiver fails one of the asserts: the raised error is a precondition
error, the event trace is empty (zero tracking-code allocations, no remote
call of any kind), and the session state — accumulator and stored posting
list — is returned exactly as it was. -/
theorem close_precondition_no_remote
    (st : SigState) (alloc : Nat → Nat → Except Err Nat) (closeErr : Option Err)
    (superResult : Except Err PostingList) (rand_id : Nat) (kwCustomId : Option Nat)
    (h : st.packages = [] ∨ st.sender = none ∨ st.receiver = none) :
    ∃ f, close_posting_list alloc closeErr superResult rand_id [] kwCustomId [] st =
      (Except.error (Err.precondition f), st, []) := by
  by_cases hp : st.packages = []
  · exact ⟨_, close_empty_packages alloc closeErr superResult rand_id kwCustomId st hp⟩
  · rcases hsd : st.sender with _ | snd
    · exact ⟨_, close_no_sender alloc closeErr superResult rand_id kwCustomId st hp hsd⟩
    · rcases hrc : st.receiver with _ | rcv
      · exact ⟨_, close_no_receiver alloc closeErr superResult rand_id kwCustomId st snd
          hp hsd hrc⟩
      · rcases h with h | h | h
        · exact absurd h hp
        · rw [hsd] at h; exact absurd h (by simp)
        · rw [hrc] at h; exact absurd h (by simp)

theorem close_precondition_no_remote_witness :
    ∃ f, close_posting_list allocSeq none superPL 42 [] none [] (initState 7) =
      (Except.error (Err.precondition f), initState 7, []) :=
  close_precondition_no_remote (initState 7) allocSeq none superPL 42 none (Or.inl rfl)

/-- C3: after every successful no-argument close, the accumulator is
empty — no packages, no sender, no receiver — and a subsequent
no-argument close (under any oracles) fails the no-packages assert with a
precondition error, leaving the emptied state untouched. -/
theorem close_resets_accumulator
    (st : SigState) (alloc : Nat → Nat → Except Err Nat) (closeErr : Option Err)
    (superResult : Except Err PostingList) (rand_id : Nat) (kwCustomId : Option Nat)
    (pl : PostingList) (st2 : SigState) (tr : List Event)
    (alloc2 : Nat → Nat → Except Err Nat) (closeErr2 : Option Err)
    (superResult2 : Except Err PostingList) (rand2 : Nat) (kw2 : Option Nat)
    (h : close_posting_list alloc closeErr superResult rand_id [] kwCustomId [] st =
      (Except.ok pl, st2, tr)) :
    st2.packages = [] ∧ st2.sender = none ∧ st2.receiver = none ∧
    close_posting_list alloc2 closeErr2 superResult2 rand2 [] kw2 [] st2 =
      (Except.error (Err.precondition PrecondField.packages), st2, []) := by
  have hst2 : st2.packages = [] ∧ st2.sender = none ∧ st2.receiver = none := by
    by_cases hp : st.packages = []
    · rw [close_empty_packages alloc closeErr superResult rand_id kwCustomId st hp] at h
      exact absurd h (by simp)
    · rcases hsd : st.sender with _ | snd
      · rw [close_no_sender alloc closeErr superResult rand_id kwCustomId st hp hsd] at h
        exact absurd h (by simp)
      · rcases hrc : st.receiver with _ | rcv
        · rw [close_no_receiver alloc closeErr superResult rand_id kwCustomId st snd
            hp hsd hrc] at h
          exact absurd h (by simp)
        · rw [close_valid_unfold alloc closeErr superResult rand_id kwCustomId st snd rcv
            hp hsd hrc] at h
          rcases hb : buildLabels st.posting_card snd rcv alloc st.packages 0
              ⟨kwCustomId.getD rand_id, [], false⟩ with ⟨r, tr2⟩
          rw [hb] at h
          rcases r with e | openPl
          · exact absurd h (by simp)
          · rcases closeErr with _ | e
            · simp only [Prod.mk.injEq] at h
              rw [← h.2.1]
              simp [drop_posting_list_data]
            · exact absurd h (by simp)
  refine ⟨hst2.1, hst2.2.1, hst2.2.2, ?_⟩
  exact close_empty_packages alloc2 closeErr2 superResult2 rand2 kw2 st2 hst2.1

theorem close_resets_accumulator_witness :
    stAfter.packages = [] ∧ stAfter.sender = none ∧ stAfter.receiver = none ∧
    close_posting_list allocFailSecond (some (Err.remote 3)) superPL 9 [] (some 1) []
        stAfter =
      (Except.error (Err.precondition PrecondField.packages), stAfter, []) :=
  close_resets_accumulator stSample allocSeq none superPL 42 none plSample stAfter
    trSample allocFailSecond (some (Err.remote 3)) superPL 9 (some 1) (by decide)

/-- C4: when a no-argument close on a validly populated state ends in an
error (with the asserts passing, only remote calls can fail: a
tracking-code allocation or the closure call), the error is the returned
result, the session state — accumulator and stored posting list — is
returned exactly as it was, and the trace records the allocations already
made, in order, with no compensating action: either the allocation
attempts up to the failure point, or all allocations plus the failed
closure call. -/
theorem close_remote_failure_preserves_state
    (st : SigState) (alloc : Nat → Nat → Except Err Nat) (closeErr : Option Err)
    (superResult : Except Err PostingList) (rand_id : Nat) (kwCustomId : Option Nat)
    (snd rcv : Address) (e : Err)
    (hp : st.packages ≠ []) (hs : st.sender = some snd) (hr : st.receiver = some rcv)
    (h : (close_posting_list alloc closeErr superResult rand_id [] kwCustomId [] st).1 =
      Except.error e) :
    (close_posting_list alloc closeErr superResult rand_id [] kwCustomId [] st).2.1 = st ∧
    ((∃ n, n ≤ st.packages.length ∧
        (close_posting_list alloc closeErr superResult rand_id [] kwCustomId [] st).2.2 =
          allocTrace (st.packages.take n) 0) ∨
     (∃ L, (close_posting_list alloc closeErr superResult rand_id [] kwCustomId [] st).2.2 =
        allocTrace st.packages 0 ++ [Event.closure L])) := by
  rw [close_valid_unfold alloc closeErr superResult rand_id kwCustomId st snd rcv hp hs hr]
    at h ⊢
  rcases hb : buildLabels st.posting_card snd rcv alloc st.packages 0
      ⟨kwCustomId.getD rand_id, [], false⟩ with ⟨r, tr⟩
  rw [hb] at h
  rcases r with e2 | openPl
  · refine ⟨rfl, Or.inl ?_⟩
    obtain ⟨n, hn, htr⟩ := buildLabels_trace_take st.posting_card snd rcv alloc
      st.packages 0 ⟨kwCustomId.getD rand_id, [], false⟩
    rw [hb] at htr
    exact ⟨n, hn, htr⟩
  · rcases closeErr with _ | e2
    · exact absurd h (by simp)
    · refine ⟨rfl, Or.inr ⟨openPl.shipping_labels, ?_⟩⟩
      have htr := buildLabels_ok_trace st.posting_card snd rcv alloc st.packages 0
        ⟨kwCustomId.getD rand_id, [], false⟩ openPl (by rw [hb])
      rw [hb] at htr
      simp only [] at htr
      simp [htr]

theorem close_remote_failure_preserves_state_witness :
    (close_posting_list allocFailSecond none superPL 42 [] none [] stSample).2.1 =
      stSample ∧
    ((∃ n, n ≤ stSample.packages.length ∧
        (close_posting_list allocFailSecond none superPL 42 [] none [] stSample).2.2 =
          allocTrace (stSample.packages.take n) 0) ∨
     (∃ L, (close_posting_list allocFailSecond none superPL 42 [] none [] stSample).2.2 =
        allocTrace stSample.packages 0 ++ [Event.closure L])) :=
  close_remote_failure_preserves_state stSample allocFailSecond none superPL 42 none
    ⟨11⟩ ⟨22⟩ (Err.remote 5) (by decide) rfl rfl (by decide)

/-- C5 counterexample: in the fresh session (nothing closed yet) the
claim "each of the five operations raises NotClosedError" fails: the
delivery-time and freights generators yield an empty sequence without
raising, and the no-argument availability check returns the Python `None`
— none of the three is the not-closed error the claim asserts.  (The two
PDF renderers do raise.) -/
theorem metrics_before_close_counterexample :
    delivery_time dtSample (initState 7) ≠ Except.error Err.notClosed ∧
    freights frSample (initState 7) ≠ Except.error Err.notClosed ∧
    (verify_service_availability availTrue superB false (initState 7)).1 ≠
      Except.error Err.notClosed ∧
    delivery_time dtSample (initState 7) = Except.ok [] ∧
    freights frSample (initState 7) = Except.ok [] ∧
    verify_service_availability availTrue superB false (initState 7) =
      (Except.ok VSAOut.noneOut, []) := by
  refine ⟨by decide, by decide, by decide, rfl, rfl, rfl⟩

/-- C5 amended: with no posting list closed yet, the two PDF-rendering
operations raise the not-closed error, while the delivery-time and
freights generators yield an empty sequence without raising and the
no-argument availability check returns `None` after issuing no remote
query. -/
theorem metrics_before_close
    (dt : Nat → Nat → Nat → Int) (fr : ShippingLabel → Nat)
    (render1 render2 : PostingList → Nat)
    (avail : Nat → Nat → Nat → Nat → Bool) (superResult : Except Err Bool)
    (st : SigState) (h : st.posting_list = none) :
    generate_delivery_labels_pdf render1 st = Except.error Err.notClosed ∧
    generate_delivery_posting_list_pdf render2 st = Except.error Err.notClosed ∧
    delivery_time dt st = Except.ok [] ∧
    freights fr st = Except.ok [] ∧
    verify_service_availability avail superResult false st =
      (Except.ok VSAOut.noneOut, []) := by
  refine ⟨?_, ?_, ?_, ?_, ?_⟩ <;>
    simp [generate_delivery_labels_pdf, generate_delivery_posting_list_pdf,
      delivery_time, freights, verify_service_availability, h]

theorem metrics_before_close_witness :
    generate_delivery_labels_pdf renderSample (initState 7) =
      Except.error Err.notClosed ∧
    generate_delivery_posting_list_pdf renderSample (initState 7) =
      Except.error Err.notClosed ∧
    delivery_time dtSample (initState 7) = Except.ok [] ∧
    freights frSample (initState 7) = Except.ok [] ∧
    verify_service_availability availTrue superB false (initState 7) =
      (Except.ok VSAOut.noneOut, []) :=
  metrics_before_close dtSample frSample renderSample renderSample availTrue superB
    (initState 7) rfl

/-- C6: within a successful no-argument close, the event trace is exactly
the allocation events in package-insertion order followed by the single
closure call: the `i`-th event is the allocation for the `i`-th package,
and the closure call happens last, only after every label is assembled,
carrying one label per package — never a partial label set. -/
theorem close_allocation_order
    (st : SigState) (alloc : Nat → Nat → Except Err Nat) (codes : Nat → Nat)
    (superResult : Except Err PostingList) (rand_id : Nat) (kwCustomId : Option Nat)
    (snd rcv : Address) (i : Nat)
    (hp : st.packages ≠ []) (hs : st.sender = some snd) (hr : st.receiver = some rcv)
    (halloc : ∀ j s, alloc j s = Except.ok (codes j))
    (hinj : ∀ j k, codes j = codes k → j = k) :
    ∃ pl st2,
      close_posting_list alloc none superResult rand_id [] kwCustomId [] st =
        (Except.ok pl, st2,
         allocTrace st.packages 0 ++ [Event.closure pl.shipping_labels]) ∧
      pl.shipping_labels.length = st.packages.length ∧
      (allocTrace st.packages 0).get? i =
        (st.packages.get? i).map (fun p => Event.allocate i p.service) := by
  rw [close_valid_unfold alloc none superResult rand_id kwCustomId st snd rcv hp hs hr]
  rw [buildLabels_spec st.posting_card snd rcv alloc codes halloc hinj st.packages 0
    ⟨kwCustomId.getD rand_id, [], false⟩ (by intro q hq; cases hq)]
  refine ⟨_, _, rfl, ?_, ?_⟩
  · simp [mkLabels_length]
  · simpa using allocTrace_get st.packages 0 i

theorem close_allocation_order_witness :
    ∃ pl st2,
      close_posting_list allocSeq none superPL 42 [] none [] stSample =
        (Except.ok pl, st2,
         allocTrace stSample.packages 0 ++ [Event.closure pl.shipping_labels]) ∧
      pl.shipping_labels.length = stSample.packages.length ∧
      (allocTrace stSample.packages 0).get? 1 =
        (stSample.packages.get? 1).map (fun p => Event.allocate 1 p.service) :=
  close_allocation_order stSample allocSeq (fun j => 100 + j) superPL 42 none ⟨11⟩ ⟨22⟩ 1
    (by decide) rfl rfl (fun j s => rfl) (fun j k h => Nat.add_left_cancel h)

/-- C7: an `add_package` call whose `service` field is missing — no
`service` keyword and too few positional arguments to reach the service
position — raises a validation error (either at the explicit guard or at
package construction) and leaves the accumulator exactly as it was: the
invalid package is never appended. -/
theorem add_package_missing_service (c : PkgCall) (st : SigState)
    (h1 : c.kwService = none) (h2 : c.args.length < 8) :
    add_package c st = (Except.error Err.validation, st) := by
  by_cases h7 : c.args.length < 7
  · simp [add_package, h1, h7]
  · have hget : c.args[7]? = none := by
      rw [← List.get?_eq_getElem?, List.get?_eq_none]
      omega
    simp [add_package, h1, h7, mkPackage, hget]

theorem add_package_missing_service_witness :
    add_package ⟨[], none⟩ (initState 7) = (Except.error Err.validation, initState 7) :=
  add_package_missing_service ⟨[], none⟩ (initState 7) rfl (by decide)

/-- C8: a no-argument availability check on a closed posting list issues
one remote query per label, in label order, on every call; the outcome of
each call is exactly the current oracle's answers, so two calls query the
registrar independently and nothing is cached across them — a second call
under a changed oracle reflects the change. -/
theorem verify_availability_no_cache
    (st : SigState) (pl : PostingList)
    (avail1 avail2 : Nat → Nat → Nat → Nat → Bool)
    (superResult1 superResult2 : Except Err Bool)
    (h : st.posting_list = some pl) :
    verify_service_availability avail1 superResult1 false st =
      (Except.ok (VSAOut.many (pl.shipping_labels.map (labelAvail avail1))),
       pl.shipping_labels.map labelQuery) ∧
    verify_service_availability avail2 superResult2 false st =
      (Except.ok (VSAOut.many (pl.shipping_labels.map (labelAvail avail2))),
       pl.shipping_labels.map labelQuery) := by
  constructor <;> simp [verify_service_availability, h]

theorem verify_availability_no_cache_witness :
    (verify_service_availability availTrue superB false stAfter =
      (Except.ok (VSAOut.many (plSample.shipping_labels.map (labelAvail availTrue))),
       plSample.shipping_labels.map labelQuery) ∧
    verify_service_availability availFalse superB false stAfter =
      (Except.ok (VSAOut.many (plSample.shipping_labels.map (labelAvail availFalse))),
       plSample.shipping_labels.map labelQuery)) ∧
    plSample.shipping_labels.map (labelAvail availTrue) ≠
      plSample.shipping_labels.map (labelAvail availFalse) :=
  ⟨verify_availability_no_cache stAfter plSample availTrue availFalse superB superB rfl,
   by decide⟩

/-- C9: constructing a session with a string regional-direction code
succeeds exactly when the regional-direction table has exactly one entry
with that code, and fails with a configuration error when zero or several
entries match. -/
theorem init_regional_direction_unique (table : List (Nat × Nat)) (code pc : Nat) :
    (((table.filter (fun rd => rd.2 == code)).length = 1) ↔
      ∃ y, SIGEPy_init table (RDInput.byCode code) pc = Except.ok y) ∧
    ((table.filter (fun rd => rd.2 == code)).length ≠ 1 →
      SIGEPy_init table (RDInput.byCode code) pc = Except.error Err.configuration) := by
  rcases hf : table.filter (fun rd => rd.2 == code) with _ | ⟨x, _ | ⟨y, rest⟩⟩
  · simp [SIGEPy_init, resolve_regional_direction, hf]
  · simp [SIGEPy_init, resolve_regional_direction, hf]
  · simp [SIGEPy_init, resolve_regional_direction, hf]

/-- The regional-direction table used by the construction witness: the
code 10 occurs exactly once, the code 30 occurs twice. -/
def tableSample : List (Nat × Nat) := [(1, 10), (2, 20), (3, 30), (4, 30)]

theorem init_regional_direction_unique_witness :
    ((((tableSample.filter (fun rd => rd.2 == 10)).length = 1) ↔
      ∃ y, SIGEPy_init tableSample (RDInput.byCode 10) 3 = Except.ok y) ∧
    ((tableSample.filter (fun rd => rd.2 == 10)).length ≠ 1 →
      SIGEPy_init tableSample (RDInput.byCode 10) 3 = Except.error Err.configuration)) ∧
    ((((tableSample.filter (fun rd => rd.2 == 30)).length = 1) ↔
      ∃ y, SIGEPy_init tableSample (RDInput.byCode 30) 3 = Except.ok y) ∧
    ((tableSample.filter (fun rd => rd.2 == 30)).length ≠ 1 →
      SIGEPy_init tableSample (RDInput.byCode 30) 3 = Except.error Err.configuration)) :=
  ⟨init_regional_direction_unique tableSample 10 3,
   init_regional_direction_unique tableSample 30 3⟩

/-- C10 counterexample: a call carrying exactly one positional argument —
which Python binds to `custom_id`, leaving `args` and `kwargs` empty — is
NOT delegated: on a validly populated session it runs the full local close
(the trace is not the delegation event, allocations happen) and resets
the accumulator, so the session state does change. -/
theorem close_single_positional_arg_counterexample :
    (close_posting_list allocSeq none superPL 42 [5] none [] stSample).2.1 ≠ stSample ∧
    (close_posting_list allocSeq none superPL 42 [5] none [] stSample).2.2 ≠
      [Event.delegated] ∧
    (close_posting_list allocSeq none superPL 42 [5] none [] stSample).1 ≠ superPL := by
  refine ⟨by decide, by decide, by decide⟩

/-- C10 amended: only a call with extra arguments — at least two
positional arguments (so that `args` is non-empty past `custom_id`) or at
least one keyword argument other than `custom_id` — is delegated directly
to the transport client's closure operation, skipping the asserts, the
allocation loop, the store and the reset, with the session state returned
unchanged; a call whose only argument binds `custom_id` instead runs the
normal local close path. -/
theorem close_extra_args_delegates
    (alloc : Nat → Nat → Except Err Nat) (closeErr : Option Err)
    (superResult : Except Err PostingList) (rand_id : Nat)
    (posArgs : List Nat) (kwCustomId : Option Nat) (extraKw : List Nat) (st : SigState)
    (h : 1 < posArgs.length ∨ extraKw ≠ []) :
    close_posting_list alloc closeErr superResult rand_id posArgs kwCustomId extraKw st =
      (superResult, st, [Event.delegated]) := by
  simp only [close_posting_list, if_pos h]

theorem close_extra_args_delegates_witness :
    close_posting_list allocSeq none superPL 42 [5, 6] none [] stSample =
      (superPL, stSample, [Event.delegated]) :=
  close_extra_args_delegates allocSeq none superPL 42 [5, 6] none [] stSample
    (Or.inl (by decide))

end SIGEPy
